import Mathlib

/-!
Verification development for the pdftemplateV2 repository.

The definitions below are a shallow embedding of the core of the source:
  - the field data model (src/components/PDFViewer.tsx, interface FieldPosition,
    the variant carrying pageNumber and multiline);
  - the text wrapping helper wrapText and the fill loop of PDFFiller.fillPDF
    (src/utils/pdfFiller.ts);
  - the field-creation and field-drag handlers of the viewer
    (src/components/PDFViewer.tsx, handlePageClick / handleFieldMouseDown);
  - the registry handlers of the application shell (src/App.tsx,
    handleFieldUpdate / handleFieldDelete);
  - PDFFiller.validateFormData and the fill gate of handleFillAndDownload.

JavaScript numbers are modelled as rationals, JavaScript strings as lists of
characters, `Record<string, string>` as an association list, and the external
pdf-lib capabilities (file read, document load, font embedding, save) as
`Except String` values supplied as parameters.  A font metric
(font.widthOfTextAtSize) is a function from a string and a font size to a
rational width.
-/

/-- Field type enumeration, source `type: 'text' | 'date' | 'number'`. -/
inductive FieldKind
  | text
  | date
  | number
deriving DecidableEq, Repr

/-- `FieldPosition` from src/components/PDFViewer.tsx.  The source marks
`multiline` optional (`multiline?: boolean`); an absent flag behaves as
`false`, which is the default here. -/
structure FieldPosition where
  id : String
  x : ℚ
  y : ℚ
  width : ℚ
  height : ℚ
  label : String
  type : FieldKind
  pageNumber : Nat
  multiline : Bool := false
deriving DecidableEq, Repr

/-- One `page.drawText` instruction emitted by the fill engine. -/
structure DrawOp where
  pageIndex : Nat
  text : List Char
  x : ℚ
  y : ℚ
  size : ℚ
deriving DecidableEq, Repr

/-- `PDFFillResult` from src/utils/pdfFiller.ts. -/
structure PDFFillResult where
  success : Bool
  error : Option String := none
  pdfBytes : Option (List Nat) := none
deriving DecidableEq, Repr

/-- Whitespace as stripped by JavaScript `String.prototype.trim` for the
whitespace forms occurring in this application (space, tab, LF, CR). -/
def isJsSpace (c : Char) : Bool := c == ' ' || c == '\t' || c == '\n' || c == '\r'

/-- Model of JavaScript `value.trim()`. -/
def trimChars (l : List Char) : List Char :=
  ((l.dropWhile isJsSpace).reverse.dropWhile isJsSpace).reverse

/-- Model of the JavaScript property read `formData[field.id]`: `none` models
`undefined`. -/
def lookupFD (formData : List (String × List Char)) (id : String) : Option (List Char) :=
  (formData.find? (fun p => p.1 == id)).map Prod.snd

/-- The skip test of the fill loop, src/utils/pdfFiller.ts line 170:
`!value || value.trim() === ''` (an `undefined` value and a blank string are
both skipped; the empty string is falsy, so both disjuncts land here). -/
def blankValue : Option (List Char) → Bool
  | none => true
  | some v => (trimChars v).isEmpty

/-- The inner cut-index scan of wrapText, src/utils/pdfFiller.ts lines 137-140:
`let cutIndex = tempWord.length; while (widthOf(substring(0, cutIndex)) > maxWidth) cutIndex--;`.
`some k` is the value of `cutIndex` when the loop exits; `none` models the case
in which the loop never exits: once `cutIndex` passes 0 every further
`substring(0, cutIndex)` is the empty string, so if even the empty prefix is
wider than `maxWidth` the JavaScript loop decrements forever. -/
def cutScan (widthOf : List Char → ℚ) (maxWidth : ℚ) (w : List Char) : Nat → Option Nat
  | 0 => if widthOf (w.take 0) > maxWidth then none else some 0
  | k + 1 =>
    if widthOf (w.take (k + 1)) > maxWidth then cutScan widthOf maxWidth w k
    else some (k + 1)

/-- The hard-split loop of wrapText, src/utils/pdfFiller.ts lines 135-144:
`while (tempWord.length > 0) { ...cutIndex scan...; if (cutIndex === 0) cutIndex = 1; push(prefix); tempWord = rest; }`.
Each iteration consumes `max cutIndex 1 ≥ 1` characters, so `fuel := word.length`
bounds the iteration count exactly and the `(0, _ :: _)` branch is unreachable
from the call site; `none` propagates a diverging cut-index scan. -/
def hardSplit (widthOf : List Char → ℚ) (maxWidth : ℚ) : Nat → List Char → Option (List (List Char))
  | _, [] => some []
  | 0, _ :: _ => none
  | fuel + 1, c :: w =>
    match cutScan widthOf maxWidth (c :: w) (c :: w).length with
    | none => none
    | some k =>
      let cut := if k == 0 then 1 else k
      match hardSplit widthOf maxWidth fuel ((c :: w).drop cut) with
      | none => none
      | some ls => some ((c :: w).take cut :: ls)

/-- The per-word loop of wrapText, src/utils/pdfFiller.ts lines 125-159, with
the running `line` accumulator; returns the lines pushed from this point on,
including the final `if (line.length > 0) allLines.push(line)`. -/
def wordsLoop (widthOf : List Char → ℚ) (maxWidth : ℚ) : List (List Char) → List Char → Option (List (List Char))
  | [], line => some (if line.isEmpty then [] else [line])
  | word :: rest, line =>
    if widthOf word > maxWidth then
      match hardSplit widthOf maxWidth word.length word with
      | none => none
      | some pieces =>
        match wordsLoop widthOf maxWidth rest [] with
        | none => none
        | some ls => some ((if line.isEmpty then [] else [line]) ++ pieces ++ ls)
    else
      let testLine := if line.isEmpty then word else line ++ ' ' :: word
      if widthOf testLine > maxWidth then
        match wordsLoop widthOf maxWidth rest word with
        | none => none
        | some ls => some (line :: ls)
      else
        wordsLoop widthOf maxWidth rest testLine

/-- The per-paragraph loop of wrapText, src/utils/pdfFiller.ts lines 121-160.
`p.splitOn ' '` models `paragraph.split(' ')` (both give `[""]` on the empty
string). -/
def parasLoop (widthOf : List Char → ℚ) (maxWidth : ℚ) : List (List Char) → Option (List (List Char))
  | [] => some []
  | p :: ps =>
    match wordsLoop widthOf maxWidth (p.splitOn ' ') [] with
    | none => none
    | some ls =>
      match parasLoop widthOf maxWidth ps with
      | none => none
      | some more => some (ls ++ more)

/-- `wrapText(text, maxWidth, fontSize)`, src/utils/pdfFiller.ts lines 118-162.
The metric parameter absorbs the font size: it stands for
`s => font.widthOfTextAtSize(s, fontSize)`.  `none` models non-termination of
the inner cut-index scan. -/
def wrapText (widthOf : List Char → ℚ) (maxWidth : ℚ) (text : List Char) : Option (List (List Char)) :=
  parasLoop widthOf maxWidth (text.splitOn '\n')

/-- A font metric built from per-character advance widths, the shape every real
text metric (pdf-lib `widthOfTextAtSize` for a standard font) has: the width of
a string is the sum of its character widths, and the empty string has width 0. -/
def additiveWidth (cw : Char → ℚ) (l : List Char) : ℚ := (l.map cw).sum

/-- `fontSize = Math.min(field.height * 0.7, 12)`, src/utils/pdfFiller.ts line 193. -/
def fontSizeOf (f : FieldPosition) : ℚ := min (f.height * (7 / 10)) 12

/-- The line-drawing loop of fillPDF, src/utils/pdfFiller.ts lines 206-216:
each line is drawn trimmed at `x` and the running `y`, then
`y -= fontSize * 1.2`. -/
def drawLines (pageIndex : Nat) (x fontSize : ℚ) : ℚ → List (List Char) → List DrawOp
  | _, [] => []
  | y, l :: ls =>
    { pageIndex := pageIndex, text := trimChars l, x := x, y := y, size := fontSize }
      :: drawLines pageIndex x fontSize (y - fontSize * (12 / 10)) ls

/-- The body of the per-field loop of fillPDF, src/utils/pdfFiller.ts lines
166-217: skip a blank value, skip a missing page, otherwise
`pdfX = field.x`, `pdfY = pageHeight - field.y - field.height`,
wrap at `field.width - 4`, and draw the lines starting at
`pdfY + field.height - fontSize` with x padding `+2`.
`pages` lists the page heights of the loaded document, so
`pages.get? (pageNumber - 1)` models `pages[field.pageNumber - 1]`. -/
def fieldOps (widthOf : List Char → ℚ → ℚ) (pages : List ℚ)
    (formData : List (String × List Char)) (f : FieldPosition) : Option (List DrawOp) :=
  match lookupFD formData f.id with
  | none => some []
  | some value =>
    if (trimChars value).isEmpty then some []
    else
      match pages.get? (f.pageNumber - 1) with
      | none => some []
      | some pageHeight =>
        let pdfX := f.x
        let pdfY := pageHeight - f.y - f.height
        let fontSize := fontSizeOf f
        match wrapText (fun s => widthOf s fontSize) (f.width - 4) value with
        | none => none
        | some lines =>
          some (drawLines (f.pageNumber - 1) (pdfX + 2) fontSize (pdfY + f.height - fontSize) lines)

/-- The full field loop of fillPDF (`for (const field of fields)`), in field
order, concatenating each field's draw instructions. -/
def fillDraws (widthOf : List Char → ℚ → ℚ) (pages : List ℚ)
    (fields : List FieldPosition) (formData : List (String × List Char)) : Option (List DrawOp) :=
  match fields with
  | [] => some []
  | f :: rest =>
    match fieldOps widthOf pages formData f with
    | none => none
    | some ops =>
      match fillDraws widthOf pages rest formData with
      | none => none
      | some more => some (ops ++ more)

/-- `PDFFiller.fillPDF`, src/utils/pdfFiller.ts lines 78-235.  The external
steps are parameters: `readFile` models `pdfFile.arrayBuffer()`, `loadDoc`
models `PDFDocument.load` and yields the page heights, `embedFontM` models
`loadFont` and yields the font metric, `save` models `pdfDoc.save()` and yields
the output bytes.  An `Except.error` models a thrown exception, which the
surrounding `try/catch` turns into `success: false` with the error message.
`none` models the one way fillPDF can fail to settle at all: the wrapText inner
scan looping forever. -/
def fillPDFmodel (readFile : Except String Unit) (loadDoc : Except String (List ℚ))
    (embedFontM : Except String (List Char → ℚ → ℚ)) (save : Except String (List Nat))
    (fields : List FieldPosition) (formData : List (String × List Char)) : Option PDFFillResult :=
  match readFile with
  | .error e => some { success := false, error := some e }
  | .ok _ =>
    match loadDoc with
    | .error e => some { success := false, error := some e }
    | .ok pages =>
      if pages.length = 0 then some { success := false, error := some "PDF has no pages" }
      else
        match embedFontM with
        | .error e => some { success := false, error := some e }
        | .ok widthOf =>
          match fillDraws widthOf pages fields formData with
          | none => none
          | some _ =>
            match save with
            | .error e => some { success := false, error := some e }
            | .ok bytes => some { success := true, pdfBytes := some bytes }

/-- The field emitted by the second corner of the create gesture,
src/components/PDFViewer.tsx handlePageClick (else branch): position is the
component-wise minimum of the two corners, size is the drag span floored at
100 by 20, label counts the fields present before the add. -/
def createField (newId : String) (dragStart : ℚ × ℚ) (x y : ℚ)
    (fieldsLength : Nat) (pageNumber : Nat) : FieldPosition :=
  { id := newId
    x := min x dragStart.1
    y := min y dragStart.2
    width := max (abs (x - dragStart.1)) 100
    height := max (abs (y - dragStart.2)) 20
    label := "Field " ++ toString (fieldsLength + 1)
    type := FieldKind.text
    pageNumber := pageNumber }

/-- `Partial<FieldPosition>`: every property optional.  `applyUpdate` models
the object spread `{ ...field, ...updates }`. -/
structure FieldUpdate where
  id : Option String := none
  x : Option ℚ := none
  y : Option ℚ := none
  width : Option ℚ := none
  height : Option ℚ := none
  label : Option String := none
  type : Option FieldKind := none
  pageNumber : Option Nat := none
  multiline : Option Bool := none
deriving DecidableEq, Repr

/-- `{ ...field, ...updates }`: present properties of the update win. -/
def applyUpdate (f : FieldPosition) (u : FieldUpdate) : FieldPosition :=
  { id := u.id.getD f.id
    x := u.x.getD f.x
    y := u.y.getD f.y
    width := u.width.getD f.width
    height := u.height.getD f.height
    label := u.label.getD f.label
    type := u.type.getD f.type
    pageNumber := u.pageNumber.getD f.pageNumber
    multiline := u.multiline.getD f.multiline }

/-- `handleFieldUpdate` from src/App.tsx:
`fields.map(field => field.id === id ? { ...field, ...updates } : field)`. -/
def handleFieldUpdate (fields : List FieldPosition) (id : String) (updates : FieldUpdate) : List FieldPosition :=
  fields.map (fun f => if f.id == id then applyUpdate f updates else f)

/-- `handleFieldDelete` from src/App.tsx (registry part):
`fields.filter(field => field.id !== id)`. -/
def handleFieldDelete (fields : List FieldPosition) (id : String) : List FieldPosition :=
  fields.filter (fun f => f.id != id)

/-- The in-progress creation rectangle (`newField` state, a
`Partial<FieldPosition>` without id). -/
structure NewFieldDraft where
  x : ℚ
  y : ℚ
  width : ℚ
  height : ℚ
  label : String
  pageNumber : Nat
deriving DecidableEq, Repr

/-- The gesture-relevant component state of PDFViewer
(src/components/PDFViewer.tsx useState hooks), with the component defaults. -/
structure ViewerState where
  isAddingField : Bool := false
  dragStart : Option (ℚ × ℚ) := none
  newField : Option NewFieldDraft := none
  isDragging : Bool := false
  dragFieldId : Option String := none
  dragOffset : Option (ℚ × ℚ) := none
  selectedFieldId : Option String := none
deriving DecidableEq, Repr

/-- The Add Field button handler: `setIsAddingField(!isAddingField)`. -/
def toggleAddField (s : ViewerState) : ViewerState :=
  { s with isAddingField := !s.isAddingField }

/-- `handleFieldMouseDown` from src/components/PDFViewer.tsx: bails out when
not movable or the field is unknown (the `pageRef.current` null check is a DOM
concern, modelled as always passing), otherwise records the drag offset and
starts a field drag.  Note the handler never consults `isAddingField` or
`dragStart`. -/
def handleFieldMouseDown (movable : Bool) (scale : ℚ) (fields : List FieldPosition)
    (clientX clientY rectLeft rectTop : ℚ) (fieldId : String) (s : ViewerState) : ViewerState :=
  if !movable then s
  else
    match fields.find? (fun f => f.id == fieldId) with
    | none => s
    | some f =>
      let mouseX := (clientX - rectLeft) / scale
      let mouseY := (clientY - rectTop) / scale
      { s with isDragging := true
               dragFieldId := some fieldId
               dragOffset := some (mouseX - f.x, mouseY - f.y)
               selectedFieldId := some fieldId }

/-- `handlePageClick` from src/components/PDFViewer.tsx: inert unless movable
and in add mode; the first click records the anchor corner and the preview
rectangle, the second click emits the created field (returned in the second
component, modelling the `onFieldAdd` callback) and resets the creation
state. -/
def handlePageClick (movable : Bool) (scale : ℚ) (fieldsLength : Nat) (pageNumber : Nat)
    (newId : String) (clientX clientY rectLeft rectTop : ℚ) (s : ViewerState) :
    ViewerState × Option FieldPosition :=
  if !movable || !s.isAddingField then (s, none)
  else
    let x := (clientX - rectLeft) / scale
    let y := (clientY - rectTop) / scale
    match s.dragStart with
    | none =>
      ({ s with dragStart := some (x, y)
                newField := some { x := x, y := y, width := 0, height := 0,
                                   label := "Field " ++ toString (fieldsLength + 1),
                                   pageNumber := pageNumber } }, none)
    | some anchor =>
      ({ s with isAddingField := false, dragStart := none, newField := none },
       some (createField newId anchor x y fieldsLength pageNumber))

/-- Hexadecimal digit test for the numeric-string model. -/
def isHexDigitC (c : Char) : Bool :=
  c.isDigit || (decide ('a' ≤ c) && decide (c ≤ 'f')) || (decide ('A' ≤ c) && decide (c ≤ 'F'))

/-- Octal digit test for the numeric-string model. -/
def isOctDigitC (c : Char) : Bool := decide ('0' ≤ c) && decide (c ≤ '7')

/-- Binary digit test for the numeric-string model. -/
def isBinDigitC (c : Char) : Bool := c == '0' || c == '1'

/-- Nonempty run of decimal digits. -/
def digits1 (l : List Char) : Bool := !l.isEmpty && l.all Char.isDigit

/-- Unsigned decimal mantissa: `digits`, `digits.digits`, `digits.` or
`.digits`. -/
def decLit (l : List Char) : Bool :=
  match l.span Char.isDigit with
  | (ds, []) => !ds.isEmpty
  | (ds, '.' :: rest) =>
    match rest.span Char.isDigit with
    | (fs, []) => !ds.isEmpty || !fs.isEmpty
    | _ => false
  | _ => false

/-- Exponent digits with optional sign. -/
def signedDigits (l : List Char) : Bool :=
  match l with
  | '+' :: r => digits1 r
  | '-' :: r => digits1 r
  | r => digits1 r

/-- Mantissa with optional exponent part. -/
def sciLit (l : List Char) : Bool :=
  match l.span (fun c => !(c == 'e' || c == 'E')) with
  | (m, []) => decLit m
  | (m, _ :: ex) => decLit m && signedDigits ex

/-- Drop one optional leading sign. -/
def stripSign (l : List Char) : List Char :=
  match l with
  | '+' :: r => r
  | '-' :: r => r
  | r => r

/-- The trimmed strings the ECMAScript `Number(string)` conversion accepts:
prefixed hex/octal/binary literals (unsigned), and optionally signed decimal or
`Infinity` literals. -/
def recognizedNumber (t : List Char) : Bool :=
  match t with
  | '0' :: 'x' :: r => !r.isEmpty && r.all isHexDigitC
  | '0' :: 'X' :: r => !r.isEmpty && r.all isHexDigitC
  | '0' :: 'o' :: r => !r.isEmpty && r.all isOctDigitC
  | '0' :: 'O' :: r => !r.isEmpty && r.all isOctDigitC
  | '0' :: 'b' :: r => !r.isEmpty && r.all isBinDigitC
  | '0' :: 'B' :: r => !r.isEmpty && r.all isBinDigitC
  | _ => stripSign t == "Infinity".toList || sciLit (stripSign t)

/-- Models the ECMAScript test `isNaN(Number(value))` on a string: a
whitespace-only string converts to 0 (not NaN), any other string is NaN
exactly when its trimmed form is not a numeric literal. -/
def jsNumberIsNaN (s : List Char) : Bool :=
  let t := trimChars s
  if t.isEmpty then false else !(recognizedNumber t)

/-- Error messages of validateFormData (src/components/FloatingToolbar.tsx,
PDFFiller.validateFormData). -/
def requiredMsg (label : String) : String := "Field \"" ++ label ++ "\" is required"

/-- Message for a number-typed field whose value is not numeric. -/
def numberMsg (label : String) : String := "Field \"" ++ label ++ "\" must be a valid number"

/-- Message for a date-typed field whose value does not parse as a date. -/
def dateMsg (label : String) : String := "Field \"" ++ label ++ "\" must be a valid date"

/-- One iteration of the validateFormData loop: a blank value pushes the
required-field error and `continue`s past the type check; otherwise the
type-specific check may push one error.  `Date.parse` is implementation-defined
in ECMAScript, so the NaN test on dates is a parameter. -/
def fieldErrors (dateParseIsNaN : List Char → Bool)
    (formData : List (String × List Char)) (f : FieldPosition) : List String :=
  match lookupFD formData f.id with
  | none => [requiredMsg f.label]
  | some value =>
    if (trimChars value).isEmpty then [requiredMsg f.label]
    else
      match f.type with
      | .number => if jsNumberIsNaN value then [numberMsg f.label] else []
      | .date => if dateParseIsNaN value then [dateMsg f.label] else []
      | .text => []

/-- `PDFFiller.validateFormData`: the collected errors in field order, and
`isValid = errors.length === 0` (returned first). -/
def validateFormData (dateParseIsNaN : List Char → Bool)
    (fields : List FieldPosition) (formData : List (String × List Char)) : Bool × List String :=
  let errors := (fields.map (fieldErrors dateParseIsNaN formData)).flatten
  (errors.isEmpty, errors)

/-- The fill gate of handleFillAndDownload (src/App.tsx lines 316-330, given a
loaded document): the fill call is reached only when at least one field exists
and validation succeeded. -/
def fillProceeds (dateParseIsNaN : List Char → Bool)
    (fields : List FieldPosition) (formData : List (String × List Char)) : Bool :=
  !fields.isEmpty && (validateFormData dateParseIsNaN fields formData).1

/-! ## Lemmas about the cut-index scan and the hard-split loop -/

/-- When the cut-index scan exits at `j`, the prefix of length `j` fits. -/
theorem cutScan_some_not_gt {widthOf : List Char → ℚ} {maxWidth : ℚ} {w : List Char} :
    ∀ {k j : Nat}, cutScan widthOf maxWidth w k = some j → ¬ widthOf (w.take j) > maxWidth := by
  intro k
  induction k with
  | zero =>
    intro j h
    simp only [cutScan] at h
    split at h
    · exact absurd h (by simp)
    · next hc => cases h; exact hc
  | succ k ih =>
    intro j h
    simp only [cutScan] at h
    split at h
    · exact ih h
    · next hc => cases h; exact hc

/-- Every prefix strictly longer than the scan result (up to the scan start)
was rejected as too wide. -/
theorem cutScan_gt_above {widthOf : List Char → ℚ} {maxWidth : ℚ} {w : List Char} :
    ∀ {k j : Nat}, cutScan widthOf maxWidth w k = some j →
      ∀ i, j < i → i ≤ k → widthOf (w.take i) > maxWidth := by
  intro k
  induction k with
  | zero =>
    intro j h i hji hik
    simp only [cutScan] at h
    split at h
    · exact absurd h (by simp)
    · cases h; omega
  | succ k ih =>
    intro j h i hji hik
    simp only [cutScan] at h
    split at h
    · next hc =>
      by_cases hie : i = k + 1
      · subst hie; exact hc
      · exact ih h i hji (by omega)
    · cases h; omega

/-- The scan exits whenever the empty prefix fits. -/
theorem cutScan_isSome {widthOf : List Char → ℚ} {maxWidth : ℚ} {w : List Char}
    (h0 : ¬ widthOf (w.take 0) > maxWidth) :
    ∀ k, (cutScan widthOf maxWidth w k).isSome := by
  intro k
  induction k with
  | zero => simp only [cutScan]; split
            · exact absurd (by assumption) h0
            · simp
  | succ k ih => simp only [cutScan]; split
                 · exact ih
                 · simp

/-- Every line pushed by the hard-split loop either fits in `maxWidth` or is a
forcibly pushed single character that is itself wider than `maxWidth`. -/
theorem hardSplit_sound {widthOf : List Char → ℚ} {maxWidth : ℚ} :
    ∀ (fuel : Nat) (w : List Char) (ls : List (List Char)),
      hardSplit widthOf maxWidth fuel w = some ls →
      ∀ l ∈ ls, widthOf l ≤ maxWidth ∨ ∃ c, l = [c] ∧ maxWidth < widthOf [c] := by
  intro fuel
  induction fuel with
  | zero =>
    intro w ls h l hl
    cases w with
    | nil => simp only [hardSplit] at h; cases h; simp at hl
    | cons c w => exact Option.noConfusion h
  | succ fuel ih =>
    intro w ls h l hl
    cases w with
    | nil => simp only [hardSplit] at h; cases h; simp at hl
    | cons c w =>
      simp only [hardSplit] at h
      split at h
      · exact Option.noConfusion h
      · next k hcs =>
        split at h
        · exact Option.noConfusion h
        · next ls' hhs =>
          cases h
          rcases List.mem_cons.mp hl with hhead | htail
          · by_cases hk0 : k = 0
            · subst hk0
              right
              refine ⟨c, by simpa using hhead, ?_⟩
              have := cutScan_gt_above hcs 1 (by omega) (by simp)
              simpa using this
            · left
              have hne : (k == 0) = false := by simp [hk0]
              rw [hne] at hhead
              simp only [Bool.false_eq_true, if_false] at hhead
              subst hhead
              exact not_lt.mp (cutScan_some_not_gt hcs)
          · exact ih _ _ hhs l htail

/-- Invariant of the word loop: the running line is empty or fits, and then
every emitted line fits except forced single-character hard splits. -/
theorem wordsLoop_sound {widthOf : List Char → ℚ} {maxWidth : ℚ} :
    ∀ (words : List (List Char)) (line : List Char) (ls : List (List Char)),
      (line = [] ∨ widthOf line ≤ maxWidth) →
      wordsLoop widthOf maxWidth words line = some ls →
      ∀ l ∈ ls, widthOf l ≤ maxWidth ∨ ∃ c, l = [c] ∧ maxWidth < widthOf [c] := by
  intro words
  induction words with
  | nil =>
    intro line ls hinv h l hl
    simp only [wordsLoop] at h
    cases h
    by_cases hline : line.isEmpty
    · rw [if_pos hline] at hl; simp at hl
    · rw [if_neg hline] at hl
      rcases List.mem_singleton.mp hl with rfl
      rcases hinv with h0 | hle
      · exact absurd (by simp [h0]) hline
      · exact Or.inl hle
  | cons word rest ih =>
    intro line ls hinv h l hl
    simp only [wordsLoop] at h
    split at h
    · next hwide =>
      split at h
      · exact Option.noConfusion h
      · next pieces hps =>
        split at h
        · exact Option.noConfusion h
        · next ls' hrest =>
          cases h
          simp only [List.mem_append] at hl
          rcases hl with (hpre | hpieces) | htail
          · by_cases hline : line.isEmpty
            · rw [if_pos hline] at hpre; simp at hpre
            · rw [if_neg hline] at hpre
              rcases List.mem_singleton.mp hpre with rfl
              rcases hinv with h0 | hle
              · exact absurd (by simp [h0]) hline
              · exact Or.inl hle
          · exact hardSplit_sound _ _ _ hps l hpieces
          · exact ih [] ls' (Or.inl rfl) hrest l htail
    · next hfit =>
      by_cases hline : line.isEmpty = true
      · rw [if_pos hline] at h
        split at h
        · next hover => exact absurd hover hfit
        · next hok => exact ih _ ls (Or.inr (not_lt.mp hok)) h l hl
      · rw [if_neg hline] at h
        split at h
        · next hover =>
          split at h
          · exact Option.noConfusion h
          · next ls' hrest =>
            cases h
            rcases List.mem_cons.mp hl with rfl | htail
            · left
              rcases hinv with h0 | hle
              · exact absurd (by simp [h0]) hline
              · exact hle
            · exact ih word ls' (Or.inr (not_lt.mp hfit)) hrest l htail
        · next hok => exact ih _ ls (Or.inr (not_lt.mp hok)) h l hl

/-- Paragraph aggregation preserves the per-line property. -/
theorem parasLoop_sound {widthOf : List Char → ℚ} {maxWidth : ℚ} :
    ∀ (ps : List (List Char)) (ls : List (List Char)),
      parasLoop widthOf maxWidth ps = some ls →
      ∀ l ∈ ls, widthOf l ≤ maxWidth ∨ ∃ c, l = [c] ∧ maxWidth < widthOf [c] := by
  intro ps
  induction ps with
  | nil =>
    intro ls h l hl
    simp only [parasLoop] at h
    cases h
    simp at hl
  | cons p rest ih =>
    intro ls h l hl
    simp only [parasLoop] at h
    split at h
    · exact Option.noConfusion h
    · next ls1 hws =>
      split at h
      · exact Option.noConfusion h
      · next more hrest =>
        cases h
        rcases List.mem_append.mp hl with h1 | h2
        · exact wordsLoop_sound _ _ _ (Or.inl rfl) hws l h1
        · exact ih _ hrest l h2

/-- With enough fuel (one unit per character, as the loop consumes at least
one character per iteration) the hard-split loop settles whenever the empty
prefix fits. -/
theorem hardSplit_isSome {widthOf : List Char → ℚ} {maxWidth : ℚ}
    (h0 : ¬ widthOf [] > maxWidth) :
    ∀ (fuel : Nat) (w : List Char), w.length ≤ fuel →
      (hardSplit widthOf maxWidth fuel w).isSome := by
  intro fuel
  induction fuel with
  | zero =>
    intro w hw
    have : w = [] := List.eq_nil_of_length_eq_zero (Nat.le_zero.mp hw)
    subst this
    simp [hardSplit]
  | succ fuel ih =>
    intro w hw
    cases w with
    | nil => simp [hardSplit]
    | cons c w =>
      have hscan := cutScan_isSome (w := c :: w) (by simpa using h0) (c :: w).length
      rcases Option.isSome_iff_exists.mp hscan with ⟨k, hk⟩
      have hcut : 1 ≤ (if k == 0 then 1 else k) := by
        by_cases hk0 : k = 0
        · simp [hk0]
        · simp only [beq_iff_eq, hk0, if_false]
          omega
      have hrec := ih ((c :: w).drop (if k == 0 then 1 else k)) (by
        simp only [List.length_drop, List.length_cons]
        simp only [List.length_cons] at hw
        omega)
      rcases Option.isSome_iff_exists.mp hrec with ⟨ls, hls⟩
      simp only [List.length_cons] at hk
      simp only [beq_iff_eq] at hls
      simp [hardSplit, hk, hls]

/-- The word loop settles whenever the empty prefix fits. -/
theorem wordsLoop_isSome {widthOf : List Char → ℚ} {maxWidth : ℚ}
    (h0 : ¬ widthOf [] > maxWidth) :
    ∀ (words : List (List Char)) (line : List Char),
      (wordsLoop widthOf maxWidth words line).isSome := by
  intro words
  induction words with
  | nil => intro line; simp [wordsLoop]
  | cons word rest ih =>
    intro line
    simp only [wordsLoop]
    split
    · rcases Option.isSome_iff_exists.mp
        (hardSplit_isSome h0 word.length word (Nat.le_refl _)) with ⟨pieces, hp⟩
      rcases Option.isSome_iff_exists.mp (ih []) with ⟨ls, hls⟩
      simp [hp, hls]
    · split
      · exact ih _
      · split
        · rcases Option.isSome_iff_exists.mp (ih word) with ⟨ls, hls⟩
          simp [hls]
        · exact ih _

/-- The paragraph loop settles whenever the empty prefix fits. -/
theorem parasLoop_isSome {widthOf : List Char → ℚ} {maxWidth : ℚ}
    (h0 : ¬ widthOf [] > maxWidth) :
    ∀ (ps : List (List Char)), (parasLoop widthOf maxWidth ps).isSome := by
  intro ps
  induction ps with
  | nil => simp [parasLoop]
  | cons p rest ih =>
    simp only [parasLoop]
    rcases Option.isSome_iff_exists.mp (wordsLoop_isSome h0 (p.splitOn ' ') []) with ⟨ls, hls⟩
    rcases Option.isSome_iff_exists.mp ih with ⟨more, hmore⟩
    simp [hls, hmore]

/-! ## Claim C3 and claim C4 -/

/-- C3: for every input text and every maxWidth > 0, every line returned by
wrapText has measured width at most maxWidth, except lines produced by the
forced single-character hard split, which may exceed maxWidth only when that
lone character's own width exceeds maxWidth. -/
theorem claim_C3_wrap_width (widthOf : List Char → ℚ) (maxWidth : ℚ) (text : List Char)
    (ls : List (List Char)) (l : List Char)
    (_hpos : 0 < maxWidth)
    (hwrap : wrapText widthOf maxWidth text = some ls) (hmem : l ∈ ls) :
    widthOf l ≤ maxWidth ∨ ∃ c, l = [c] ∧ maxWidth < widthOf [c] :=
  parasLoop_sound _ _ hwrap l hmem

/-- Witness for C3: with a 10-per-character metric and maxWidth 25, the input
"ab c" wraps into the lines "ab" and "c", and the line "ab" fits. -/
theorem claim_C3_wrap_width_witness :
    additiveWidth (fun _ => (10:ℚ)) ['a', 'b'] ≤ 25 ∨
      ∃ c, ['a', 'b'] = [c] ∧ (25:ℚ) < additiveWidth (fun _ => (10:ℚ)) [c] :=
  claim_C3_wrap_width (additiveWidth (fun _ => (10:ℚ))) 25 "ab c".toList
    [['a', 'b'], ['c']] ['a', 'b'] (by norm_num)
    (by norm_num +decide [wrapText, parasLoop, wordsLoop, hardSplit, cutScan, additiveWidth,
      List.splitOn, List.splitOnP, List.splitOnP.go])
    (by decide)

/-- C4 counterexample: the claim promises termination for every maxWidth and
every font metric, but at `maxWidth = -1` (reachable in the source as
`field.width - 4` for a field narrower than 4 units) even the empty prefix is
wider than maxWidth, so the cut-index scan of the word "a" under a
1-per-character metric never exits; the model records this divergence as
`none`. -/
theorem claim_C4_counterexample :
    wrapText (additiveWidth (fun _ => (1:ℚ))) (-1) ['a'] = none := by
  norm_num +decide [wrapText, parasLoop, wordsLoop, hardSplit, cutScan, additiveWidth,
    List.splitOn, List.splitOnP, List.splitOnP.go]

/-- C4 (amended): for every per-character font metric, every input text, and
every maxWidth ≥ 0 (rather than every maxWidth), wrapText terminates: the
forced-advance of at least one character per hard-split iteration yields a
result. -/
theorem claim_C4_termination (cw : Char → ℚ) (maxWidth : ℚ) (text : List Char)
    (hnn : 0 ≤ maxWidth) :
    (wrapText (additiveWidth cw) maxWidth text).isSome := by
  have h0 : ¬ additiveWidth cw [] > maxWidth := by
    simp only [additiveWidth, List.map_nil, List.sum_nil, gt_iff_lt, not_lt]
    exact hnn
  exact parasLoop_isSome h0 _

/-- Witness for C4 (amended): a maxWidth of 1, smaller than the width 5 of
every single character, still terminates (by forced single-character lines). -/
theorem claim_C4_termination_witness :
    (0:ℚ) ≤ 1 ∧ (wrapText (additiveWidth (fun _ => (5:ℚ))) 1 "ab".toList).isSome :=
  ⟨by norm_num, claim_C4_termination (fun _ => (5:ℚ)) 1 "ab".toList (by norm_num)⟩

/-! ## Lemmas about the fill loop -/

/-- A field whose value is present and non-blank and whose page exists is
rendered from the write origin `(f.x, H - f.y - f.height)`: the lines are the
wrapText output, drawn from `x = writeX + 2` and first-line
`y = writeY + height - fontSize` downwards. -/
theorem fieldOps_run (widthOf : List Char → ℚ → ℚ) (pages : List ℚ)
    (formData : List (String × List Char)) (f : FieldPosition) (v : List Char) (H : ℚ)
    (hv : lookupFD formData f.id = some v)
    (hbl : (trimChars v).isEmpty = false)
    (hpg : pages.get? (f.pageNumber - 1) = some H) :
    fieldOps widthOf pages formData f =
      (wrapText (fun s => widthOf s (fontSizeOf f)) (f.width - 4) v).map
        (drawLines (f.pageNumber - 1) (f.x + 2) (fontSizeOf f)
          ((H - f.y - f.height) + f.height - fontSizeOf f)) := by
  simp only [fieldOps, hv, hbl, hpg, Bool.false_eq_true, if_false]
  cases hw : wrapText (fun s => widthOf s (fontSizeOf f)) (f.width - 4) v <;> simp

/-- A field that is skipped (blank value or missing page) contributes no draw
instructions and no failure. -/
theorem fieldOps_skip (widthOf : List Char → ℚ → ℚ) (pages : List ℚ)
    (formData : List (String × List Char)) (f : FieldPosition)
    (h : blankValue (lookupFD formData f.id) = true ∨ pages.get? (f.pageNumber - 1) = none) :
    fieldOps widthOf pages formData f = some [] := by
  rcases h with hb | hp
  · cases hl : lookupFD formData f.id with
    | none => simp [fieldOps, hl]
    | some v =>
      rw [hl] at hb
      simp only [blankValue] at hb
      simp [fieldOps, hl, hb]
  · cases hl : lookupFD formData f.id with
    | none => simp [fieldOps, hl]
    | some v =>
      by_cases ht : (trimChars v).isEmpty
      · simp [fieldOps, hl, ht]
      · have hp2 : pages[f.pageNumber - 1]? = none := by
          simpa [List.get?_eq_getElem?] using hp
        simp [fieldOps, hl, ht, hp2]

/-- Removing a skipped field from anywhere in the list leaves the fill loop's
output unchanged. -/
theorem fillDraws_skip (widthOf : List Char → ℚ → ℚ) (pages : List ℚ)
    (formData : List (String × List Char)) (f : FieldPosition)
    (h : blankValue (lookupFD formData f.id) = true ∨ pages.get? (f.pageNumber - 1) = none) :
    ∀ (l₁ l₂ : List FieldPosition),
      fillDraws widthOf pages (l₁ ++ f :: l₂) formData = fillDraws widthOf pages (l₁ ++ l₂) formData := by
  intro l₁
  induction l₁ with
  | nil =>
    intro l₂
    simp only [List.nil_append, fillDraws, fieldOps_skip widthOf pages formData f h]
    cases fillDraws widthOf pages l₂ formData <;> simp
  | cons g l₁ ih =>
    intro l₂
    simp only [List.cons_append, fillDraws, List.append_eq]
    rw [ih]

/-! ## Claim C1 -/

/-- C1: for every field with a non-blank form value whose page exists, the
fill engine computes the document-space write origin by the vertical-flip
rule: writeX = field.x and writeY = pageHeight - field.y - field.height, where
pageHeight is the height of the field's target page; the wrapped lines are
drawn from that origin (x padded by 2, first line at writeY + height -
fontSize). -/
theorem claim_C1_write_origin (widthOf : List Char → ℚ → ℚ) (pages : List ℚ)
    (formData : List (String × List Char)) (f : FieldPosition) (v : List Char) (H : ℚ)
    (hv : lookupFD formData f.id = some v)
    (hbl : (trimChars v).isEmpty = false)
    (hpg : pages.get? (f.pageNumber - 1) = some H) :
    fieldOps widthOf pages formData f =
      (wrapText (fun s => widthOf s (fontSizeOf f)) (f.width - 4) v).map
        (drawLines (f.pageNumber - 1) (f.x + 2) (fontSizeOf f)
          ((H - f.y - f.height) + f.height - fontSizeOf f)) :=
  fieldOps_run widthOf pages formData f v H hv hbl hpg

/-- Witness for C1: the field {x:100, y:100, width:200, height:20} on a page
of height 800 filled with "Hello" is written from document origin
y = 800 - 100 - 20 = 680 (the single line lands at 680 + 20 - 12 = 688). -/
theorem claim_C1_write_origin_witness :
    fieldOps (fun s _ => additiveWidth (fun _ => (10:ℚ)) s) [800] [("h", "Hello".toList)]
      { id := "h", x := 100, y := 100, width := 200, height := 20, label := "L",
        type := FieldKind.text, pageNumber := 1 } =
      some [{ pageIndex := 0, text := "Hello".toList, x := 100 + 2,
              y := (800 - 100 - 20) + 20 - 12, size := 12 }] := by
  rw [claim_C1_write_origin (fun s _ => additiveWidth (fun _ => (10:ℚ)) s) [800]
    [("h", "Hello".toList)]
    { id := "h", x := 100, y := 100, width := 200, height := 20, label := "L",
      type := FieldKind.text, pageNumber := 1 }
    "Hello".toList 800 (by decide) (by decide) rfl]
  norm_num +decide [wrapText, parasLoop, wordsLoop, hardSplit, cutScan, additiveWidth,
    drawLines, trimChars, isJsSpace, fontSizeOf, List.splitOn, List.splitOnP, List.splitOnP.go]

/-! ## Claim C5 -/

/-- C5: the fill loop processes fields in registry order; a field whose value
is absent or blank after trimming, or whose page number does not resolve to an
existing page, is skipped: the loop's output is the same as without that
field, and with the remaining fields settling, the whole fill still completes
with a successful result. -/
theorem claim_C5_skip_continues (widthOf : List Char → ℚ → ℚ) (pages : List ℚ)
    (formData : List (String × List Char)) (l₁ l₂ : List FieldPosition) (f : FieldPosition)
    (hskip : blankValue (lookupFD formData f.id) = true ∨ pages.get? (f.pageNumber - 1) = none) :
    fillDraws widthOf pages (l₁ ++ f :: l₂) formData = fillDraws widthOf pages (l₁ ++ l₂) formData ∧
    (∀ (ops : List DrawOp) (bytes : List Nat), pages.length ≠ 0 →
      fillDraws widthOf pages (l₁ ++ l₂) formData = some ops →
      fillPDFmodel (Except.ok ()) (Except.ok pages) (Except.ok widthOf) (Except.ok bytes)
        (l₁ ++ f :: l₂) formData =
        some { success := true, error := none, pdfBytes := some bytes }) := by
  constructor
  · exact fillDraws_skip widthOf pages formData f hskip l₁ l₂
  · intro ops bytes hnz hops
    simp only [fillPDFmodel]
    rw [if_neg hnz, fillDraws_skip widthOf pages formData f hskip l₁ l₂, hops]

/-- Witness for C5: a field pointing at page 5 of a one-page document is
skipped, and the fill still succeeds for the other, correctly configured
field. -/
theorem claim_C5_skip_continues_witness :
    fillPDFmodel (Except.ok ()) (Except.ok [100])
      (Except.ok (fun s _ => additiveWidth (fun _ => (10:ℚ)) s)) (Except.ok [7])
      [{ id := "g", x := 0, y := 0, width := 104, height := 20, label := "G",
         type := FieldKind.text, pageNumber := 1 },
       { id := "m", x := 0, y := 0, width := 104, height := 20, label := "M",
         type := FieldKind.text, pageNumber := 5 }]
      [("g", "aa".toList)] =
      some { success := true, error := none, pdfBytes := some [7] } :=
  (claim_C5_skip_continues (fun s _ => additiveWidth (fun _ => (10:ℚ)) s) [100]
    [("g", "aa".toList)]
    [{ id := "g", x := 0, y := 0, width := 104, height := 20, label := "G",
       type := FieldKind.text, pageNumber := 1 }] []
    { id := "m", x := 0, y := 0, width := 104, height := 20, label := "M",
      type := FieldKind.text, pageNumber := 5 }
    (Or.inl (by decide))).2
    [{ pageIndex := 0, text := "aa".toList, x := 2, y := 88, size := 12 }] [7]
    (by decide)
    (by norm_num +decide [fillDraws, fieldOps, lookupFD, trimChars, isJsSpace, fontSizeOf,
      wrapText, parasLoop, wordsLoop, hardSplit, cutScan, additiveWidth, drawLines,
      List.splitOn, List.splitOnP, List.splitOnP.go])

/-! ## Claim C6 -/

/-- C6 counterexample: a field whose multiline flag is not set, filled with a
value that wraps into two lines, is drawn with BOTH lines, top-aligned (first
line at writeY + height - fontSize = 88), not with one wrapped line vertically
centered (which would be y = writeY + (height - fontSize) / 2 = 84): the fill
engine never consults the multiline flag. -/
theorem claim_C6_counterexample :
    ({ id := "m", x := 0, y := 0, width := 104, height := 20, label := "F",
       type := FieldKind.text, pageNumber := 1 } : FieldPosition).multiline = false ∧
    fieldOps (fun s _ => additiveWidth (fun _ => (10:ℚ)) s) [100]
      [("m", "aaaaaa aaaaaa".toList)]
      { id := "m", x := 0, y := 0, width := 104, height := 20, label := "F",
        type := FieldKind.text, pageNumber := 1 } =
      some [{ pageIndex := 0, text := "aaaaaa".toList, x := 2, y := 88, size := 12 },
            { pageIndex := 0, text := "aaaaaa".toList, x := 2, y := 368 / 5, size := 12 }] ∧
    (88 : ℚ) ≠ (100 - 0 - 20) + (20 - 12) / 2 := by
  refine ⟨rfl, ?_, by norm_num⟩
  norm_num +decide [fieldOps, lookupFD, trimChars, isJsSpace, fontSizeOf, wrapText,
    parasLoop, wordsLoop, hardSplit, cutScan, additiveWidth, drawLines,
    List.splitOn, List.splitOnP, List.splitOnP.go]

/-- C6 (amended): the fill engine ignores the multiline flag entirely: every
field with a non-blank value on an existing page — whatever its multiline flag
— is rendered with the top-aligned multi-line layout, drawing all wrapped
lines from y = writeY + height - fontSize downwards in steps of
fontSize * 1.2; no field gets the vertically centered single-line layout. -/
theorem claim_C6_layout (widthOf : List Char → ℚ → ℚ) (pages : List ℚ)
    (formData : List (String × List Char)) (f : FieldPosition) (b : Bool)
    (v : List Char) (H : ℚ) (lines : List (List Char))
    (hv : lookupFD formData f.id = some v)
    (hbl : (trimChars v).isEmpty = false)
    (hpg : pages.get? (f.pageNumber - 1) = some H)
    (hw : wrapText (fun s => widthOf s (fontSizeOf f)) (f.width - 4) v = some lines) :
    fieldOps widthOf pages formData { f with multiline := b } =
      some (drawLines (f.pageNumber - 1) (f.x + 2) (fontSizeOf f)
        ((H - f.y - f.height) + f.height - fontSizeOf f) lines) := by
  rw [fieldOps_run widthOf pages formData { f with multiline := b } v H hv hbl hpg]
  show (wrapText (fun s => widthOf s (fontSizeOf f)) (f.width - 4) v).map
      (drawLines (f.pageNumber - 1) (f.x + 2) (fontSizeOf f)
        ((H - f.y - f.height) + f.height - fontSizeOf f)) = _
  rw [hw]
  rfl

/-- Witness for C6 (amended): the same two-line layout is produced with the
multiline flag set to true. -/
theorem claim_C6_layout_witness :
    fieldOps (fun s _ => additiveWidth (fun _ => (10:ℚ)) s) [100]
      [("m", "aaaaaa aaaaaa".toList)]
      { id := "m", x := 0, y := 0, width := 104, height := 20, label := "F",
        type := FieldKind.text, pageNumber := 1, multiline := true } =
      some (drawLines 0 (0 + 2) 12 ((100 - 0 - 20) + 20 - 12)
        ["aaaaaa".toList, "aaaaaa".toList]) := by
  have h := claim_C6_layout (fun s _ => additiveWidth (fun _ => (10:ℚ)) s) [100]
    [("m", "aaaaaa aaaaaa".toList)]
    { id := "m", x := 0, y := 0, width := 104, height := 20, label := "F",
      type := FieldKind.text, pageNumber := 1 } true
    "aaaaaa aaaaaa".toList 100 ["aaaaaa".toList, "aaaaaa".toList]
    (by decide) (by decide) rfl
    (by norm_num +decide [wrapText, parasLoop, wordsLoop, hardSplit, cutScan, additiveWidth,
      fontSizeOf, List.splitOn, List.splitOnP, List.splitOnP.go])
  rw [h]
  norm_num [fontSizeOf]

/-! ## Claim C2 -/

/-- C2: every completed create-gesture with first corner (x1,y1) and second
corner (x2,y2) on page p emits a field with x = min(x1,x2), y = min(y1,y2),
width = max(|x2-x1|, 100), height = max(|y2-y1|, 20), pageNumber = p, default
type text and default label "Field N" with N the field count before creation
plus 1; in particular the degenerate drag from (50,50) to (60,55) on page 1
yields {x:50, y:50, width:100, height:20, pageNumber:1}. -/
theorem claim_C2_create_gesture :
    (∀ (newId : String) (x1 y1 x2 y2 : ℚ) (n p : Nat),
      (createField newId (x1, y1) x2 y2 n p).x = min x1 x2 ∧
      (createField newId (x1, y1) x2 y2 n p).y = min y1 y2 ∧
      (createField newId (x1, y1) x2 y2 n p).width = max (abs (x2 - x1)) 100 ∧
      (createField newId (x1, y1) x2 y2 n p).height = max (abs (y2 - y1)) 20 ∧
      (createField newId (x1, y1) x2 y2 n p).pageNumber = p ∧
      (createField newId (x1, y1) x2 y2 n p).label = "Field " ++ toString (n + 1) ∧
      (createField newId (x1, y1) x2 y2 n p).type = FieldKind.text) ∧
    createField "f1" (50, 50) 60 55 0 1 =
      { id := "f1", x := 50, y := 50, width := 100, height := 20, label := "Field 1",
        type := FieldKind.text, pageNumber := 1 } := by
  constructor
  · intro newId x1 y1 x2 y2 n p
    exact ⟨min_comm x2 x1, min_comm y2 y1, rfl, rfl, rfl, rfl, rfl⟩
  · simp only [createField, FieldPosition.mk.injEq]
    norm_num
    decide

/-! ## Claim C7 -/

/-- C7: validateFormData reports an error whenever any field's value is blank
after trimming or type-mismatched — a number-typed field holding a non-numeric
value, or a date-typed field holding a value the date parser cannot parse —
and the fill gate of handleFillAndDownload only proceeds when validation
reports no errors. -/
theorem claim_C7_validation :
    (∀ (dp : List Char → Bool) (fields : List FieldPosition)
       (formData : List (String × List Char)) (f : FieldPosition),
      f ∈ fields → blankValue (lookupFD formData f.id) = true →
      (validateFormData dp fields formData).2 ≠ []) ∧
    (∀ (dp : List Char → Bool) (fields : List FieldPosition)
       (formData : List (String × List Char)) (f : FieldPosition) (v : List Char),
      f ∈ fields → lookupFD formData f.id = some v → (trimChars v).isEmpty = false →
      f.type = FieldKind.number → jsNumberIsNaN v = true →
      (validateFormData dp fields formData).2 ≠ []) ∧
    (∀ (dp : List Char → Bool) (fields : List FieldPosition)
       (formData : List (String × List Char)) (f : FieldPosition) (v : List Char),
      f ∈ fields → lookupFD formData f.id = some v → (trimChars v).isEmpty = false →
      f.type = FieldKind.date → dp v = true →
      (validateFormData dp fields formData).2 ≠ []) ∧
    (∀ (dp : List Char → Bool) (fields : List FieldPosition)
       (formData : List (String × List Char)),
      fillProceeds dp fields formData = true →
      (validateFormData dp fields formData).2 = []) := by
  have key : ∀ (dp : List Char → Bool) (fields : List FieldPosition)
      (formData : List (String × List Char)) (f : FieldPosition),
      f ∈ fields → fieldErrors dp formData f ≠ [] →
      (validateFormData dp fields formData).2 ≠ [] := by
    intro dp fields formData f hf hne hcontra
    simp only [validateFormData] at hcontra
    exact hne (List.flatten_eq_nil_iff.mp hcontra _ (List.mem_map_of_mem _ hf))
  refine ⟨?_, ?_, ?_, ?_⟩
  · intro dp fields formData f hf hblank
    apply key dp fields formData f hf
    cases hl : lookupFD formData f.id with
    | none => simp [fieldErrors, hl]
    | some v =>
      rw [hl] at hblank
      simp only [blankValue] at hblank
      simp [fieldErrors, hl, hblank]
  · intro dp fields formData f v hf hl hbl hty hnan
    apply key dp fields formData f hf
    simp [fieldErrors, hl, hbl, hty, hnan]
  · intro dp fields formData f v hf hl hbl hty hnan
    apply key dp fields formData f hf
    simp [fieldErrors, hl, hbl, hty, hnan]
  · intro dp fields formData hgo
    simp only [fillProceeds, Bool.and_eq_true] at hgo
    simp only [validateFormData] at hgo ⊢
    exact List.isEmpty_iff.mp hgo.2

/-- Witness for C7: a number-typed field containing "abc" makes validation
report an error, as does a date-typed field whose value the date parser
rejects; the number field containing "42" validates and the fill gate
opens. -/
theorem claim_C7_validation_witness :
    (validateFormData (fun _ => false)
      [{ id := "n", x := 0, y := 0, width := 100, height := 20, label := "N",
         type := FieldKind.number, pageNumber := 1 }] [("n", "abc".toList)]).2 ≠ [] ∧
    (validateFormData (fun _ => true)
      [{ id := "d", x := 0, y := 0, width := 100, height := 20, label := "D",
         type := FieldKind.date, pageNumber := 1 }] [("d", "nodate".toList)]).2 ≠ [] ∧
    (validateFormData (fun _ => false)
      [{ id := "n", x := 0, y := 0, width := 100, height := 20, label := "N",
         type := FieldKind.number, pageNumber := 1 }] [("n", "42".toList)]).1 = true ∧
    fillProceeds (fun _ => false)
      [{ id := "n", x := 0, y := 0, width := 100, height := 20, label := "N",
         type := FieldKind.number, pageNumber := 1 }] [("n", "42".toList)] = true :=
  ⟨claim_C7_validation.2.1 (fun _ => false) _ [("n", "abc".toList)]
      { id := "n", x := 0, y := 0, width := 100, height := 20, label := "N",
        type := FieldKind.number, pageNumber := 1 } "abc".toList
      (List.mem_singleton.mpr rfl) (by decide) (by decide) rfl (by decide),
   claim_C7_validation.2.2.1 (fun _ => true) _ [("d", "nodate".toList)]
      { id := "d", x := 0, y := 0, width := 100, height := 20, label := "D",
        type := FieldKind.date, pageNumber := 1 } "nodate".toList
      (List.mem_singleton.mpr rfl) (by decide) (by decide) rfl rfl,
   by decide, by decide⟩

/-! ## Claim C8 -/

/-- C8: update on an id not present in the registry is a no-op that leaves the
registry unchanged (and, being a total function, cannot throw); in particular
after a field is deleted mid-drag, its id is gone from the registry and the
subsequent drag-move update is a no-op. -/
theorem claim_C8_unknown_update_noop :
    (∀ (fields : List FieldPosition) (id : String) (u : FieldUpdate),
      (∀ f ∈ fields, f.id ≠ id) → handleFieldUpdate fields id u = fields) ∧
    (∀ (fields : List FieldPosition) (id : String) (u : FieldUpdate),
      (∀ g ∈ handleFieldDelete fields id, g.id ≠ id) ∧
      handleFieldUpdate (handleFieldDelete fields id) id u = handleFieldDelete fields id) := by
  have h1 : ∀ (fields : List FieldPosition) (id : String) (u : FieldUpdate),
      (∀ f ∈ fields, f.id ≠ id) → handleFieldUpdate fields id u = fields := by
    intro fields id u h
    induction fields with
    | nil => rfl
    | cons f fs ih =>
      simp only [handleFieldUpdate, List.map_cons]
      have hne : (f.id == id) = false := by
        simpa using h f (List.mem_cons_self f fs)
      rw [hne]
      simp only [Bool.false_eq_true, if_false, List.cons.injEq, true_and]
      exact ih (fun g hg => h g (List.mem_cons_of_mem f hg))
  refine ⟨h1, ?_⟩
  intro fields id u
  have hg : ∀ g ∈ handleFieldDelete fields id, g.id ≠ id := by
    intro g hgmem
    have := List.of_mem_filter hgmem
    simpa using this
  exact ⟨hg, h1 _ _ _ hg⟩

/-- Witness for C8: updating id "a" in a registry whose only field has id "b"
changes nothing, and after deleting "a" the follow-up drag-move update on "a"
is a no-op. -/
theorem claim_C8_unknown_update_noop_witness :
    handleFieldUpdate
      [{ id := "b", x := 0, y := 0, width := 100, height := 20, label := "B",
         type := FieldKind.text, pageNumber := 1 }] "a" { x := some 5 } =
      [{ id := "b", x := 0, y := 0, width := 100, height := 20, label := "B",
         type := FieldKind.text, pageNumber := 1 }] ∧
    handleFieldUpdate
      (handleFieldDelete
        [{ id := "a", x := 0, y := 0, width := 100, height := 20, label := "A",
           type := FieldKind.text, pageNumber := 1 }] "a") "a" { x := some 5 } =
      handleFieldDelete
        [{ id := "a", x := 0, y := 0, width := 100, height := 20, label := "A",
           type := FieldKind.text, pageNumber := 1 }] "a" :=
  ⟨claim_C8_unknown_update_noop.1 _ "a" { x := some 5 }
      (by
        intro f hf
        rcases List.mem_singleton.mp hf with rfl
        decide),
   (claim_C8_unknown_update_noop.2 _ "a" { x := some 5 }).2⟩

/-! ## Claim C9 -/

/-- C9 counterexample: from the initial viewer state, enter add mode and place
the first corner at (10,10) (state AwaitingSecondCorner); a mouse-down on the
existing field "a" is then NOT ignored: the handler starts a drag
(isDragging, dragFieldId, dragOffset set) while the pending creation state
(isAddingField, dragStart, newField) is still in place, so a creation gesture
and a drag gesture are active simultaneously. -/
theorem claim_C9_counterexample :
    handleFieldMouseDown true 1
      [{ id := "a", x := 0, y := 0, width := 100, height := 20, label := "A",
         type := FieldKind.text, pageNumber := 1 }]
      5 5 0 0 "a"
      ((handlePageClick true 1 1 1 "new" 10 10 0 0 (toggleAddField {})).1) =
      { isAddingField := true
        dragStart := some (10, 10)
        newField := some { x := 10, y := 10, width := 0, height := 0,
                           label := "Field 2", pageNumber := 1 }
        isDragging := true
        dragFieldId := some "a"
        dragOffset := some (5, 5)
        selectedFieldId := some "a" } := by
  norm_num +decide [handleFieldMouseDown, handlePageClick, toggleAddField,
    ViewerState.mk.injEq, NewFieldDraft.mk.injEq, List.find?]

/-- C9 (amended): a mouse-down on an existing field is not gated on the
creation gesture: whenever edit mode is on and the field id resolves, the
handler starts a field drag immediately and leaves every other state
component, including a pending creation gesture's isAddingField / dragStart /
newField, unchanged — so two gestures can be active at once. -/
theorem claim_C9_drag_during_creation (scale : ℚ) (fields : List FieldPosition)
    (clientX clientY rectLeft rectTop : ℚ) (fieldId : String) (s : ViewerState)
    (f : FieldPosition)
    (hf : fields.find? (fun g => g.id == fieldId) = some f) :
    handleFieldMouseDown true scale fields clientX clientY rectLeft rectTop fieldId s =
      { s with isDragging := true
               dragFieldId := some fieldId
               dragOffset := some ((clientX - rectLeft) / scale - f.x,
                                   (clientY - rectTop) / scale - f.y)
               selectedFieldId := some fieldId } := by
  simp [handleFieldMouseDown, hf]

/-- Witness for C9 (amended): applied in state AwaitingSecondCorner (first
corner placed, second pending). -/
theorem claim_C9_drag_during_creation_witness :
    handleFieldMouseDown true 1
      [{ id := "a", x := 0, y := 0, width := 100, height := 20, label := "A",
         type := FieldKind.text, pageNumber := 1 }]
      5 5 0 0 "a"
      { isAddingField := true, dragStart := some (10, 10) } =
      { isAddingField := true
        dragStart := some (10, 10)
        isDragging := true
        dragFieldId := some "a"
        dragOffset := some ((5 - 0) / 1 - 0, (5 - 0) / 1 - 0)
        selectedFieldId := some "a" } :=
  claim_C9_drag_during_creation 1
    [{ id := "a", x := 0, y := 0, width := 100, height := 20, label := "A",
       type := FieldKind.text, pageNumber := 1 }]
    5 5 0 0 "a" { isAddingField := true, dragStart := some (10, 10) }
    { id := "a", x := 0, y := 0, width := 100, height := 20, label := "A",
      type := FieldKind.text, pageNumber := 1 } rfl

/-! ## Claim C10 -/

/-- C10 counterexample: fillPDF does not always resolve to a result record:
for a field of width 2 (so maxWidth = 2 - 4 = -2) with the non-blank value "a"
on an existing page, the wrapText cut-index scan never exits (even the empty
prefix, of width 0, is wider than -2), so the fill never settles — modelled as
`none`. -/
theorem claim_C10_counterexample :
    fillPDFmodel (Except.ok ()) (Except.ok [100])
      (Except.ok (fun s _ => additiveWidth (fun _ => (10:ℚ)) s)) (Except.ok [7])
      [{ id := "i", x := 0, y := 0, width := 2, height := 20, label := "I",
         type := FieldKind.text, pageNumber := 1 }]
      [("i", "a".toList)] = none := by
  norm_num +decide [fillPDFmodel, fillDraws, fieldOps, lookupFD, trimChars, isJsSpace,
    fontSizeOf, wrapText, parasLoop, wordsLoop, hardSplit, cutScan, additiveWidth,
    List.splitOn, List.splitOnP, List.splitOnP.go]

/-- C10 (amended): provided the text wrapping of the processed fields settles
(which rules out only the diverging cut-index scan), fillPDF always resolves
to a result record and never throws: success:false with a message when the
document read, load, font embedding or save step fails or the document has
zero pages, and success:true with the serialized bytes otherwise. -/
theorem claim_C10_resolves (readFile : Except String Unit) (loadDoc : Except String (List ℚ))
    (embedFontM : Except String (List Char → ℚ → ℚ)) (save : Except String (List Nat))
    (fields : List FieldPosition) (formData : List (String × List Char))
    (hterm : ∀ (w : List Char → ℚ → ℚ) (pages : List ℚ),
      loadDoc = Except.ok pages → embedFontM = Except.ok w →
      (fillDraws w pages fields formData).isSome) :
    ∃ r, fillPDFmodel readFile loadDoc embedFontM save fields formData = some r ∧
      ((r.success = true ∧ r.error = none ∧ ∃ b, save = Except.ok b ∧ r.pdfBytes = some b) ∨
       (r.success = false ∧ r.error.isSome = true)) := by
  cases readFile with
  | error e => exact ⟨_, rfl, Or.inr ⟨rfl, rfl⟩⟩
  | ok u =>
    cases u
    cases loadDoc with
    | error e => exact ⟨_, rfl, Or.inr ⟨rfl, rfl⟩⟩
    | ok pages =>
      by_cases hz : pages.length = 0
      · refine ⟨{ success := false, error := some "PDF has no pages", pdfBytes := none },
          ?_, Or.inr ⟨rfl, rfl⟩⟩
        simp [fillPDFmodel, hz]
      · have hz2 : pages ≠ [] := by
          intro hnil
          exact hz (by simp [hnil])
        cases embedFontM with
        | error e =>
          refine ⟨{ success := false, error := some e, pdfBytes := none },
            ?_, Or.inr ⟨rfl, rfl⟩⟩
          simp [fillPDFmodel, hz2]
        | ok w =>
          rcases Option.isSome_iff_exists.mp (hterm w pages rfl rfl) with ⟨ops, hops⟩
          cases save with
          | error e =>
            refine ⟨{ success := false, error := some e, pdfBytes := none },
              ?_, Or.inr ⟨rfl, rfl⟩⟩
            simp [fillPDFmodel, hz2, hops]
          | ok b =>
            refine ⟨{ success := true, error := none, pdfBytes := some b },
              ?_, Or.inl ⟨rfl, rfl, b, rfl, rfl⟩⟩
            simp [fillPDFmodel, hz2, hops]

/-- Witness for C10 (amended): a well-formed one-field fill resolves. -/
theorem claim_C10_resolves_witness :
    ∃ r, fillPDFmodel (Except.ok ()) (Except.ok [100])
      (Except.ok (fun s _ => additiveWidth (fun _ => (10:ℚ)) s)) (Except.ok [7])
      [{ id := "g", x := 0, y := 0, width := 104, height := 20, label := "G",
         type := FieldKind.text, pageNumber := 1 }]
      [("g", "aa".toList)] = some r ∧
      ((r.success = true ∧ r.error = none ∧
          ∃ b, (Except.ok [7] : Except String (List Nat)) = Except.ok b ∧ r.pdfBytes = some b) ∨
       (r.success = false ∧ r.error.isSome = true)) :=
  claim_C10_resolves (Except.ok ()) (Except.ok [100])
    (Except.ok (fun s _ => additiveWidth (fun _ => (10:ℚ)) s)) (Except.ok [7])
    [{ id := "g", x := 0, y := 0, width := 104, height := 20, label := "G",
       type := FieldKind.text, pageNumber := 1 }]
    [("g", "aa".toList)]
    (by
      intro w pages h1 h2
      injection h1 with h1
      injection h2 with h2
      subst h1
      subst h2
      norm_num +decide [fillDraws, fieldOps, lookupFD, trimChars, isJsSpace, fontSizeOf,
        wrapText, parasLoop, wordsLoop, hardSplit, cutScan, additiveWidth, drawLines,
        List.splitOn, List.splitOnP, List.splitOnP.go])
